import Mathlib

/-!
Shallow embedding of the Secure-Transaction envelope-encryption core:
`packages/crypto/src/encrypt.ts`, `packages/crypto/src/validate.ts`, the
decrypt module, and the `/tx/encrypt` route guard of `apps/api/src/server.ts`.

Byte buffers (`node:Buffer`) are lists of naturals below 256; strings are
lists of characters.  The AES-256-GCM primitive of `node:crypto` is an
external dependency of the repository: GCM is counter-mode, so its ciphertext
is the plaintext XORed with a keystream determined by key and nonce, and its
authentication tag is a function of key, nonce and ciphertext.  The embedding
takes those two functions as the fields of a `GcmPrim` parameter; the parts of
the AEAD contract a theorem needs appear as its hypotheses.
`JSON.stringify` / `JSON.parse` are likewise host functions, taken as a
`JsonCodec` parameter.  All randomness (`randomBytes`) and the clock are
passed explicitly, which is the standard way to embed effectful code purely.
-/

abbrev Bytes := List Nat

abbrev Str := List Char

/-- Membership of the character class `[0-9a-fA-F]` of the regular expression
`/^[0-9a-f]*$/i` used by `isValidHex` in `validate.ts` (ASCII codes:
digits 48-57, `a`-`f` 97-102, `A`-`F` 65-70). -/
def isHexDigitChar (c : Char) : Bool :=
  (48 ≤ c.toNat && c.toNat ≤ 57) || (97 ≤ c.toNat && c.toNat ≤ 102)
    || (65 ≤ c.toNat && c.toNat ≤ 70)

/-- Translation of `isValidHex` (`validate.ts`): every character is a hex
digit and the length is even. -/
def isValidHex (s : Str) : Bool :=
  s.all isHexDigitChar && s.length % 2 == 0

/-- Numeric value of a hex digit, case-insensitive, as `Buffer.from(hex,
"hex")` decodes it; 0 on a non-digit, which the callers never reach. -/
def hexDigitVal (c : Char) : Nat :=
  if 48 ≤ c.toNat && c.toNat ≤ 57 then c.toNat - 48
  else if 97 ≤ c.toNat && c.toNat ≤ 102 then c.toNat - 87
  else if 65 ≤ c.toNat && c.toNat ≤ 70 then c.toNat - 55
  else 0

/-- Translation of `hexToBuffer` (decrypt module): `Buffer.from(hex, "hex")`
decodes consecutive digit pairs and stops at the first pair that is not two
hex digits, which is Node's behaviour; after `validateRecord` the input is
always fully valid hex. -/
def hexToBuffer : Str → Bytes
  | c1 :: c2 :: rest =>
    if isHexDigitChar c1 && isHexDigitChar c2 then
      (16 * hexDigitVal c1 + hexDigitVal c2) :: hexToBuffer rest
    else []
  | _ => []

/-- Lowercase hex digit of a nibble, as `Buffer.toString("hex")` writes it
(arguments above 15 do not arise; the catch-all keeps the function total). -/
def hexChar : Nat → Char
  | 0 => '0' | 1 => '1' | 2 => '2' | 3 => '3' | 4 => '4'
  | 5 => '5' | 6 => '6' | 7 => '7' | 8 => '8' | 9 => '9'
  | 10 => 'a' | 11 => 'b' | 12 => 'c' | 13 => 'd' | 14 => 'e'
  | _ => 'f'

/-- Two lowercase hex digits of one byte, high nibble first. -/
def byteToHex (b : Nat) : Str :=
  [hexChar (b / 16), hexChar (b % 16)]

/-- Translation of `buffer.toString("hex")`: lowercase hex, two characters
per byte. -/
def bytesToHex (bs : Bytes) : Str :=
  (bs.map byteToHex).flatten

/-- Interface of the `node:crypto` AES-256-GCM primitive, the external
dependency behind `createCipheriv` / `createDecipheriv`.  `stream key nonce i`
is byte `i` of the counter-mode keystream; `tagOf key nonce ct` is the 16-byte
authentication tag GCM computes over the ciphertext (with empty associated
data) under that key and nonce. -/
structure GcmPrim where
  stream : Bytes → Bytes → Nat → Nat
  tagOf : Bytes → Bytes → Bytes → Bytes

/-- Keystream application starting at byte index `i`: counter-mode encryption
and decryption are both this map. -/
def xorStreamFrom (P : GcmPrim) (key nonce : Bytes) : Nat → Bytes → Bytes
  | _, [] => []
  | i, b :: bs => (b ^^^ P.stream key nonce i) :: xorStreamFrom P key nonce (i + 1) bs

/-- Keystream application from index 0. -/
def xorStream (P : GcmPrim) (key nonce data : Bytes) : Bytes :=
  xorStreamFrom P key nonce 0 data

/-- Output triple of `aes256gcmEncrypt` in `encrypt.ts`. -/
structure SealOut where
  ciphertext : Bytes
  nonce : Bytes
  tag : Bytes

/-- Translation of `aes256gcmEncrypt` (`encrypt.ts`); the caller passes the
random 12-byte nonce that `randomBytes(12)` drew there. -/
def aes256gcmEncrypt (P : GcmPrim) (key nonce plaintext : Bytes) : SealOut :=
  let ct := xorStream P key nonce plaintext
  ⟨ct, nonce, P.tagOf key nonce ct⟩

/-- Translation of `aes256gcmDecrypt` (decrypt module): `decipher.final()`
throws unless the supplied tag verifies against key, nonce and ciphertext,
modelled as `none`; on success the plaintext is the keystream applied to the
ciphertext, and no partial plaintext escapes on failure. -/
def aes256gcmDecrypt (P : GcmPrim) (key nonce ciphertext tag : Bytes) : Option Bytes :=
  if P.tagOf key nonce ciphertext = tag then some (xorStream P key nonce ciphertext)
  else none

/-- Translation of the `TxSecureRecord` interface (`types.ts`).  The
TypeScript literal types `alg: "AES-256-GCM"` and `mk_version: 1` are
compile-time annotations only; a runtime record can carry any values there,
so the embedding gives the two fields their carrier types. -/
structure TxSecureRecord where
  id : Str
  partyId : Str
  createdAt : Str
  payload_nonce : Str
  payload_ct : Str
  payload_tag : Str
  dek_wrap_nonce : Str
  dek_wrapped : Str
  dek_wrap_tag : Str
  alg : Str
  mk_version : Nat
deriving DecidableEq

/-- Names of the six validated binary fields, used in `MalformedRecord`
errors (the `label` argument of the validators in `validate.ts`). -/
inductive HexField where
  | payload_nonce
  | payload_ct
  | payload_tag
  | dek_wrap_nonce
  | dek_wrapped
  | dek_wrap_tag
deriving DecidableEq

/-- Validation-gate errors of `validate.ts`: the message
`` `${label}: invalid hex encoding` `` and the message
`` `${label}: expected N bytes, got M` ``. -/
inductive ValErr where
  | invalidHex (field : HexField)
  | wrongByteLength (field : HexField) (expected got : Nat)
deriving DecidableEq

/-- Error taxonomy of the core, one constructor per `throw` site:
`invalidKeyLength` is "Master key must be exactly 32 bytes" (both entry
points); `malformedRecord` wraps a validation-gate error; `dekUnwrapFailure`
is "DEK unwrap failed: wrong master key or corrupted data";
`payloadDecryptFailure` is "Payload decryption failed: data may have been
tampered with"; `jsonParseFailure` is the `SyntaxError` that `JSON.parse`
throws out of `decryptPayload` uncaught — the spec's `InternalInconsistency`
class. -/
inductive CryptoError where
  | invalidKeyLength
  | malformedRecord (e : ValErr)
  | dekUnwrapFailure
  | payloadDecryptFailure
  | jsonParseFailure
deriving DecidableEq

/-- Translation of `validateHexLength` (`validate.ts`): reject invalid hex,
then compare `hex.length / 2` with the expected byte count. -/
def validateHexLength (hex : Str) (byteLen : Nat) (field : HexField) : Except ValErr Unit :=
  if isValidHex hex = false then .error (.invalidHex field)
  else if hex.length / 2 ≠ byteLen then
    .error (.wrongByteLength field byteLen (hex.length / 2))
  else .ok ()

/-- Translation of `validateNonce` (`validate.ts`): exactly 12 bytes. -/
def validateNonce (hex : Str) (field : HexField) : Except ValErr Unit :=
  validateHexLength hex 12 field

/-- Translation of `validateTag` (`validate.ts`): exactly 16 bytes. -/
def validateTag (hex : Str) (field : HexField) : Except ValErr Unit :=
  validateHexLength hex 16 field

/-- Translation of `validateRecord` (`validate.ts`), checking the six binary
fields in source order; the first violation is reported and nothing later is
looked at. -/
def validateRecord (r : TxSecureRecord) : Except ValErr Unit :=
  match validateNonce r.payload_nonce .payload_nonce with
  | .error e => .error e
  | .ok _ =>
  if isValidHex r.payload_ct = false then .error (.invalidHex .payload_ct)
  else
  match validateTag r.payload_tag .payload_tag with
  | .error e => .error e
  | .ok _ =>
  match validateNonce r.dek_wrap_nonce .dek_wrap_nonce with
  | .error e => .error e
  | .ok _ =>
  if isValidHex r.dek_wrapped = false then .error (.invalidHex .dek_wrapped)
  else
  match validateTag r.dek_wrap_tag .dek_wrap_tag with
  | .error e => .error e
  | .ok _ => .ok ()

/-- JSON values: the `Record<string, unknown>` payloads and what `JSON.parse`
returns.  JavaScript numbers are IEEE doubles; no claim depends on numeric
semantics and the serialization codec below is a parameter, so an integer
carrier suffices. -/
inductive Json where
  | null
  | bool (b : Bool)
  | num (n : Int)
  | str (s : Str)
  | arr (items : List Json)
  | obj (fields : List (Str × Json))

/-- Interface of the host JSON codec: `stringify` is
`Buffer.from(JSON.stringify(v), "utf-8")` and `parse` is `JSON.parse` of the
UTF-8 decoding, `none` standing for the `SyntaxError` throw. -/
structure JsonCodec where
  stringify : Json → Bytes
  parse : Bytes → Option Json

/-- Translation of the `EncryptInput` interface (`types.ts`). -/
structure EncryptInput where
  partyId : Str
  payload : Json

/-- Translation of the `DecryptResult` interface (`types.ts`). -/
structure DecryptResult where
  id : Str
  partyId : Str
  payload : Json

/-- Values drawn from `randomBytes` during one `encryptPayload` call: the
record id (`generateId`, 16 random bytes hex-encoded, kept abstract as the
resulting string), the 32-byte DEK, and the two 12-byte nonces. -/
structure EncRandom where
  id : Str
  dek : Bytes
  payloadNonce : Bytes
  dekWrapNonce : Bytes

/-- Fixed `alg` metadata literal `"AES-256-GCM"` of `encrypt.ts`. -/
def algTag : Str :=
  ['A', 'E', 'S', '-', '2', '5', '6', '-', 'G', 'C', 'M']

/-- Record assembled at step 5 of `encryptPayload` (`encrypt.ts`): payload
encrypted under the DEK, DEK wrapped under the master key, all binary values
hex-encoded, plus the metadata fields. -/
def encryptRecordBody (P : GcmPrim) (C : JsonCodec) (rnd : EncRandom) (now : Str)
    (input : EncryptInput) (masterKey : Bytes) : TxSecureRecord :=
  let payloadAsBytes := C.stringify input.payload
  let encryptedPayload := aes256gcmEncrypt P rnd.dek rnd.payloadNonce payloadAsBytes
  let wrappedDek := aes256gcmEncrypt P masterKey rnd.dekWrapNonce rnd.dek
  { id := rnd.id
    partyId := input.partyId
    createdAt := now
    payload_nonce := bytesToHex encryptedPayload.nonce
    payload_ct := bytesToHex encryptedPayload.ciphertext
    payload_tag := bytesToHex encryptedPayload.tag
    dek_wrap_nonce := bytesToHex wrappedDek.nonce
    dek_wrapped := bytesToHex wrappedDek.ciphertext
    dek_wrap_tag := bytesToHex wrappedDek.tag
    alg := algTag
    mk_version := 1 }

/-- Translation of `encryptPayload` (`encrypt.ts`): the only check is the
master-key length; nothing inspects the shape of `input.payload`. -/
def encryptPayload (P : GcmPrim) (C : JsonCodec) (rnd : EncRandom) (now : Str)
    (input : EncryptInput) (masterKey : Bytes) : Except CryptoError TxSecureRecord :=
  if masterKey.length ≠ 32 then .error .invalidKeyLength
  else .ok (encryptRecordBody P C rnd now input masterKey)

/-- Translation of `decryptPayload` (decrypt module): key-length check,
validation gate, DEK unwrap (its `try`/`catch` wraps any throw of the AEAD
call into the DEK-unwrap error), payload decryption (likewise), then
`JSON.parse`, whose possible throw is not caught and propagates. -/
def decryptPayload (P : GcmPrim) (C : JsonCodec) (record : TxSecureRecord)
    (masterKey : Bytes) : Except CryptoError DecryptResult :=
  if masterKey.length ≠ 32 then .error .invalidKeyLength
  else
    match validateRecord record with
    | .error e => .error (.malformedRecord e)
    | .ok _ =>
      match aes256gcmDecrypt P masterKey (hexToBuffer record.dek_wrap_nonce)
          (hexToBuffer record.dek_wrapped) (hexToBuffer record.dek_wrap_tag) with
      | none => .error .dekUnwrapFailure
      | some dek =>
        match aes256gcmDecrypt P dek (hexToBuffer record.payload_nonce)
            (hexToBuffer record.payload_ct) (hexToBuffer record.payload_tag) with
        | none => .error .payloadDecryptFailure
        | some payloadBytes =>
          match C.parse payloadBytes with
          | none => .error .jsonParseFailure
          | some payload => .ok ⟨record.id, record.partyId, payload⟩

/-- JavaScript truthiness of a JSON value (`!payload` in `server.ts`). -/
def jsTruthy : Json → Bool
  | .null => false
  | .bool b => b
  | .num n => decide (n ≠ 0)
  | .str s => decide (s ≠ [])
  | .arr _ => true
  | .obj _ => true

/-- JavaScript `typeof payload === "object"` on a JSON value; `typeof null`
is `"object"` and arrays are objects. -/
def jsTypeofIsObject : Json → Bool
  | .null => true
  | .arr _ => true
  | .obj _ => true
  | _ => false

/-- JavaScript `Array.isArray`. -/
def jsIsArray : Json → Bool
  | .arr _ => true
  | _ => false

/-- Guard of the `/tx/encrypt` route (`server.ts`):
`!payload || typeof payload !== "object" || Array.isArray(payload)` sends a
400 response before `encryptPayload` is ever called. -/
def txEncryptHandlerRejectsPayload (p : Json) : Bool :=
  !jsTruthy p || !jsTypeofIsObject p || jsIsArray p

/-- Object test on a JSON value (the payload shape §4.2 of the spec calls a
JSON-object-shaped value). -/
def jsonIsObj : Json → Bool
  | .obj _ => true
  | _ => false

/-- Wellformedness of a byte buffer: every entry is below 256, as every
`Buffer` entry is. -/
def BytesWF (bs : Bytes) : Prop :=
  ∀ b ∈ bs, b < 256

instance (bs : Bytes) : Decidable (BytesWF bs) :=
  inferInstanceAs (Decidable (∀ b ∈ bs, b < 256))

/-- Shape contract of the external GCM primitive (§4.1 of the spec):
keystream entries are bytes, authentication tags are 16 bytes. -/
structure GcmPrimWF (P : GcmPrim) : Prop where
  stream_lt : ∀ k n i, P.stream k n i < 256
  tagOf_length : ∀ k n ct, (P.tagOf k n ct).length = 16
  tagOf_wf : ∀ k n ct, BytesWF (P.tagOf k n ct)

/-- Shape of the values `randomBytes` actually draws in `encryptPayload`:
a 32-byte DEK and two 12-byte nonces. -/
structure EncRandomWF (rnd : EncRandom) : Prop where
  dek_length : rnd.dek.length = 32
  dek_wf : BytesWF rnd.dek
  payloadNonce_length : rnd.payloadNonce.length = 12
  payloadNonce_wf : BytesWF rnd.payloadNonce
  dekWrapNonce_length : rnd.dekWrapNonce.length = 12
  dekWrapNonce_wf : BytesWF rnd.dekWrapNonce

theorem isHexDigitChar_hexChar (n : Nat) : isHexDigitChar (hexChar n) = true := by
  unfold hexChar
  split <;> decide

theorem hexDigitVal_hexChar : ∀ n < 16, hexDigitVal (hexChar n) = n := by
  decide

theorem bytesToHex_nil : bytesToHex [] = [] := rfl

theorem bytesToHex_cons (b : Nat) (bs : Bytes) :
    bytesToHex (b :: bs) = hexChar (b / 16) :: hexChar (b % 16) :: bytesToHex bs := rfl

theorem bytesToHex_length (bs : Bytes) : (bytesToHex bs).length = 2 * bs.length := by
  induction bs with
  | nil => rfl
  | cons b bs ih => simp [bytesToHex_cons, ih]; omega

theorem bytesToHex_all_hex (bs : Bytes) :
    ∀ c ∈ bytesToHex bs, isHexDigitChar c = true := by
  induction bs with
  | nil => intro c hc; cases hc
  | cons b bs ih =>
    intro c hc
    rw [bytesToHex_cons] at hc
    simp only [List.mem_cons] at hc
    rcases hc with rfl | rfl | hc
    · exact isHexDigitChar_hexChar _
    · exact isHexDigitChar_hexChar _
    · exact ih c hc

theorem isValidHex_bytesToHex (bs : Bytes) : isValidHex (bytesToHex bs) = true := by
  have hall := bytesToHex_all_hex bs
  simp [isValidHex, List.all_eq_true, bytesToHex_length]
  exact fun c hc => hall c hc

theorem hexToBuffer_bytesToHex (bs : Bytes) (h : BytesWF bs) :
    hexToBuffer (bytesToHex bs) = bs := by
  induction bs with
  | nil => rfl
  | cons b bs ih =>
    have hb : b < 256 := h b (List.mem_cons_self _ _)
    have hhi : b / 16 < 16 := by omega
    have hlo : b % 16 < 16 := by omega
    rw [bytesToHex_cons]
    unfold hexToBuffer
    rw [isHexDigitChar_hexChar, isHexDigitChar_hexChar]
    simp only [Bool.and_self, if_true]
    rw [hexDigitVal_hexChar _ hhi, hexDigitVal_hexChar _ hlo,
      ih (fun x hx => h x (List.mem_cons_of_mem _ hx))]
    congr 1
    omega

theorem xorStreamFrom_length (P : GcmPrim) (k n : Bytes) :
    ∀ (i : Nat) (d : Bytes), (xorStreamFrom P k n i d).length = d.length := by
  intro i d
  induction d generalizing i with
  | nil => rfl
  | cons b bs ih => simp [xorStreamFrom, ih]

theorem xorStream_length (P : GcmPrim) (k n d : Bytes) :
    (xorStream P k n d).length = d.length :=
  xorStreamFrom_length P k n 0 d

theorem xorStreamFrom_invol (P : GcmPrim) (k n : Bytes) :
    ∀ (i : Nat) (d : Bytes), xorStreamFrom P k n i (xorStreamFrom P k n i d) = d := by
  intro i d
  induction d generalizing i with
  | nil => rfl
  | cons b bs ih =>
    simp only [xorStreamFrom]
    rw [Nat.xor_assoc, Nat.xor_self, Nat.xor_zero, ih]

theorem xorStream_invol (P : GcmPrim) (k n d : Bytes) :
    xorStream P k n (xorStream P k n d) = d :=
  xorStreamFrom_invol P k n 0 d

theorem xorStreamFrom_wf (P : GcmPrim) (k n : Bytes)
    (hs : ∀ i, P.stream k n i < 256) :
    ∀ (d : Bytes), BytesWF d → ∀ (i : Nat), BytesWF (xorStreamFrom P k n i d) := by
  intro d
  induction d with
  | nil => intro _ i b hb; cases hb
  | cons b bs ih =>
    intro hd i x hx
    simp only [xorStreamFrom, List.mem_cons] at hx
    rcases hx with rfl | hx
    · exact @Nat.xor_lt_two_pow b (P.stream k n i) 8 (hd b (List.mem_cons_self _ _)) (hs i)
    · exact ih (fun y hy => hd y (List.mem_cons_of_mem _ hy)) (i + 1) x hx

theorem xorStream_wf (P : GcmPrim) (k n d : Bytes)
    (hs : ∀ i, P.stream k n i < 256) (hd : BytesWF d) : BytesWF (xorStream P k n d) :=
  xorStreamFrom_wf P k n hs d hd 0

theorem isValidHex_iff (s : Str) :
    isValidHex s = true ↔ (∀ c ∈ s, isHexDigitChar c = true) ∧ s.length % 2 = 0 := by
  simp [isValidHex, List.all_eq_true]

theorem strTwoStepInduction {motive : Str → Prop} (h0 : motive [])
    (h1 : ∀ c, motive [c])
    (h2 : ∀ c1 c2 rest, motive rest → motive (c1 :: c2 :: rest)) :
    ∀ s, motive s
  | [] => h0
  | [c] => h1 c
  | c1 :: c2 :: rest => h2 c1 c2 rest (strTwoStepInduction h0 h1 h2 rest)

theorem hexToBuffer_length_of_hex (s : Str)
    (h : ∀ c ∈ s, isHexDigitChar c = true) : (hexToBuffer s).length = s.length / 2 := by
  induction s using strTwoStepInduction with
  | h0 => rfl
  | h1 c => simp [hexToBuffer]
  | h2 c1 c2 rest ih =>
    have hc1 : isHexDigitChar c1 = true := h c1 (by simp)
    have hc2 : isHexDigitChar c2 = true := h c2 (by simp)
    unfold hexToBuffer
    rw [hc1, hc2]
    simp only [Bool.and_self, if_true, List.length_cons]
    rw [ih (fun c hc => h c (by simp [hc]))]
    omega

theorem validateHexLength_ok_iff (hex : Str) (n : Nat) (f : HexField) :
    validateHexLength hex n f = Except.ok () ↔
      isValidHex hex = true ∧ (hexToBuffer hex).length = n := by
  constructor
  · intro h
    unfold validateHexLength at h
    split at h
    · simp at h
    · rename_i hv
      have hv' : isValidHex hex = true := by
        revert hv; cases isValidHex hex <;> simp
      split at h
      · simp at h
      · rename_i hn
        have hall := ((isValidHex_iff hex).mp hv').1
        rw [hexToBuffer_length_of_hex hex hall]
        exact ⟨hv', by omega⟩
  · rintro ⟨hv, hd⟩
    have hall := ((isValidHex_iff hex).mp hv).1
    have hdec := hexToBuffer_length_of_hex hex hall
    unfold validateHexLength
    rw [hv]
    rw [if_neg (by simp)]
    rw [if_neg (by omega)]

theorem validateRecord_ok_iff (r : TxSecureRecord) :
    validateRecord r = Except.ok () ↔
      (isValidHex r.payload_nonce = true ∧ (hexToBuffer r.payload_nonce).length = 12) ∧
      isValidHex r.payload_ct = true ∧
      (isValidHex r.payload_tag = true ∧ (hexToBuffer r.payload_tag).length = 16) ∧
      (isValidHex r.dek_wrap_nonce = true ∧ (hexToBuffer r.dek_wrap_nonce).length = 12) ∧
      isValidHex r.dek_wrapped = true ∧
      (isValidHex r.dek_wrap_tag = true ∧ (hexToBuffer r.dek_wrap_tag).length = 16) := by
  constructor
  · intro h
    unfold validateRecord validateNonce validateTag at h
    split at h
    · simp at h
    · rename_i u1 heq1
      split at h
      · simp at h
      · rename_i hct
        split at h
        · simp at h
        · rename_i u2 heq2
          split at h
          · simp at h
          · rename_i u3 heq3
            split at h
            · simp at h
            · rename_i hdw
              split at h
              · simp at h
              · rename_i u4 heq4
                have hctv : isValidHex r.payload_ct = true := by
                  revert hct; cases isValidHex r.payload_ct <;> simp
                have hdwv : isValidHex r.dek_wrapped = true := by
                  revert hdw; cases isValidHex r.dek_wrapped <;> simp
                exact ⟨(validateHexLength_ok_iff _ _ _).mp heq1, hctv,
                  (validateHexLength_ok_iff _ _ _).mp heq2,
                  (validateHexLength_ok_iff _ _ _).mp heq3, hdwv,
                  (validateHexLength_ok_iff _ _ _).mp heq4⟩
  · rintro ⟨⟨hpnv, hpnl⟩, hctv, ⟨hptv, hptl⟩, ⟨hdnv, hdnl⟩, hdwv, ⟨hdtv, hdtl⟩⟩
    unfold validateRecord validateNonce validateTag
    rw [(validateHexLength_ok_iff _ _ _).mpr ⟨hpnv, hpnl⟩,
      (validateHexLength_ok_iff _ _ _).mpr ⟨hptv, hptl⟩,
      (validateHexLength_ok_iff _ _ _).mpr ⟨hdnv, hdnl⟩,
      (validateHexLength_ok_iff _ _ _).mpr ⟨hdtv, hdtl⟩]
    simp [hctv, hdwv]

theorem decryptPayload_wellformed (P : GcmPrim) (C : JsonCodec) (r : TxSecureRecord)
    (mk dek pn dn pt : Bytes)
    (hP : GcmPrimWF P) (hmk : mk.length = 32)
    (hdek : BytesWF dek) (hpnw : BytesWF pn) (hpnl : pn.length = 12)
    (hdnw : BytesWF dn) (hdnl : dn.length = 12) (hpt : BytesWF pt)
    (h1 : r.payload_nonce = bytesToHex pn)
    (h2 : r.payload_ct = bytesToHex (xorStream P dek pn pt))
    (h3 : r.payload_tag = bytesToHex (P.tagOf dek pn (xorStream P dek pn pt)))
    (h4 : r.dek_wrap_nonce = bytesToHex dn)
    (h5 : r.dek_wrapped = bytesToHex (xorStream P mk dn dek))
    (h6 : r.dek_wrap_tag = bytesToHex (P.tagOf mk dn (xorStream P mk dn dek))) :
    decryptPayload P C r mk =
      match C.parse pt with
      | some p => Except.ok ⟨r.id, r.partyId, p⟩
      | none => Except.error CryptoError.jsonParseFailure := by
  have hctwf : BytesWF (xorStream P dek pn pt) :=
    xorStream_wf _ _ _ _ (fun i => hP.stream_lt _ _ _) hpt
  have hwctwf : BytesWF (xorStream P mk dn dek) :=
    xorStream_wf _ _ _ _ (fun i => hP.stream_lt _ _ _) hdek
  have hval : validateRecord r = Except.ok () := by
    rw [validateRecord_ok_iff, h1, h2, h3, h4, h5, h6]
    refine ⟨⟨isValidHex_bytesToHex _, ?_⟩, isValidHex_bytesToHex _,
      ⟨isValidHex_bytesToHex _, ?_⟩, ⟨isValidHex_bytesToHex _, ?_⟩,
      isValidHex_bytesToHex _, ⟨isValidHex_bytesToHex _, ?_⟩⟩
    · rw [hexToBuffer_bytesToHex _ hpnw, hpnl]
    · rw [hexToBuffer_bytesToHex _ (hP.tagOf_wf _ _ _), hP.tagOf_length]
    · rw [hexToBuffer_bytesToHex _ hdnw, hdnl]
    · rw [hexToBuffer_bytesToHex _ (hP.tagOf_wf _ _ _), hP.tagOf_length]
  unfold decryptPayload
  rw [if_neg (by omega)]
  simp only [hval]
  rw [h4, h5, h6, hexToBuffer_bytesToHex _ hdnw, hexToBuffer_bytesToHex _ hwctwf,
    hexToBuffer_bytesToHex _ (hP.tagOf_wf _ _ _)]
  simp only [aes256gcmDecrypt, if_pos, xorStream_invol]
  rw [h1, h2, h3, hexToBuffer_bytesToHex _ hpnw, hexToBuffer_bytesToHex _ hctwf,
    hexToBuffer_bytesToHex _ (hP.tagOf_wf _ _ _)]
  simp only [if_pos, xorStream_invol]
  cases C.parse pt <;> rfl

theorem encryptPayload_ok (P : GcmPrim) (C : JsonCodec) (rnd : EncRandom) (now : Str)
    (input : EncryptInput) (mkKey : Bytes) (hmk : mkKey.length = 32) :
    encryptPayload P C rnd now input mkKey =
      Except.ok (encryptRecordBody P C rnd now input mkKey) := by
  unfold encryptPayload
  rw [if_neg (by omega)]

theorem encryptPayload_err (P : GcmPrim) (C : JsonCodec) (rnd : EncRandom) (now : Str)
    (input : EncryptInput) (mkKey : Bytes) (hmk : mkKey.length ≠ 32) :
    encryptPayload P C rnd now input mkKey = Except.error CryptoError.invalidKeyLength := by
  unfold encryptPayload
  rw [if_pos hmk]

theorem aes256gcmDecrypt_roundtrip (P : GcmPrim) (k n pt : Bytes)
    (hP : GcmPrimWF P) (hn : BytesWF n) (hpt : BytesWF pt) :
    aes256gcmDecrypt P k (hexToBuffer (bytesToHex n))
      (hexToBuffer (bytesToHex (xorStream P k n pt)))
      (hexToBuffer (bytesToHex (P.tagOf k n (xorStream P k n pt)))) = some pt := by
  rw [hexToBuffer_bytesToHex _ hn,
    hexToBuffer_bytesToHex _ (xorStream_wf _ _ _ _ (fun i => hP.stream_lt _ _ _) hpt),
    hexToBuffer_bytesToHex _ (hP.tagOf_wf _ _ _)]
  unfold aes256gcmDecrypt
  rw [if_pos rfl, xorStream_invol]

theorem aes256gcmDecrypt_none (P : GcmPrim) (k n ct tg : Bytes)
    (h : P.tagOf k n ct ≠ tg) : aes256gcmDecrypt P k n ct tg = none := by
  unfold aes256gcmDecrypt
  rw [if_neg h]

theorem decryptPayload_unwrap_fail (P : GcmPrim) (C : JsonCodec) (r : TxSecureRecord)
    (mkKey : Bytes) (hmk : mkKey.length = 32) (hval : validateRecord r = Except.ok ())
    (hnone : aes256gcmDecrypt P mkKey (hexToBuffer r.dek_wrap_nonce)
      (hexToBuffer r.dek_wrapped) (hexToBuffer r.dek_wrap_tag) = none) :
    decryptPayload P C r mkKey = Except.error CryptoError.dekUnwrapFailure := by
  unfold decryptPayload
  rw [if_neg (by omega), hval, hnone]

theorem decryptPayload_payload_layer (P : GcmPrim) (C : JsonCodec) (r : TxSecureRecord)
    (mkKey dek : Bytes) (hmk : mkKey.length = 32) (hval : validateRecord r = Except.ok ())
    (hunwrap : aes256gcmDecrypt P mkKey (hexToBuffer r.dek_wrap_nonce)
      (hexToBuffer r.dek_wrapped) (hexToBuffer r.dek_wrap_tag) = some dek) :
    decryptPayload P C r mkKey =
      match aes256gcmDecrypt P dek (hexToBuffer r.payload_nonce) (hexToBuffer r.payload_ct)
          (hexToBuffer r.payload_tag) with
      | none => Except.error CryptoError.payloadDecryptFailure
      | some pb =>
        match C.parse pb with
        | none => Except.error CryptoError.jsonParseFailure
        | some p => Except.ok ⟨r.id, r.partyId, p⟩ := by
  unfold decryptPayload
  rw [if_neg (by omega), hval, hunwrap]

theorem isValidHex_set (s : Str) (i : Nat) (c : Char) (hs : isValidHex s = true)
    (hc : isHexDigitChar c = true) : isValidHex (s.set i c) = true := by
  rw [isValidHex_iff] at hs ⊢
  refine ⟨?_, by rw [List.length_set]; exact hs.2⟩
  intro x hx
  rcases List.mem_or_eq_of_mem_set hx with hx | rfl
  · exact hs.1 x hx
  · exact hc

theorem hexDigitVal_lt (c : Char) : hexDigitVal c < 16 := by
  unfold hexDigitVal
  split <;> rename_i h1
  · simp only [Bool.and_eq_true, decide_eq_true_eq] at h1
    omega
  · split <;> rename_i h2
    · simp only [Bool.and_eq_true, decide_eq_true_eq] at h2
      omega
    · split <;> rename_i h3
      · simp only [Bool.and_eq_true, decide_eq_true_eq] at h3
        omega
      · omega

theorem hexToBuffer_set_ne (s : Str) (i : Nat) (c : Char)
    (hall : ∀ x ∈ s, isHexDigitChar x = true) (heven : s.length % 2 = 0)
    (hi : i < s.length) (hc : isHexDigitChar c = true)
    (hne : hexDigitVal c ≠ hexDigitVal (s.get ⟨i, hi⟩)) :
    hexToBuffer (s.set i c) ≠ hexToBuffer s := by
  induction s using strTwoStepInduction generalizing i with
  | h0 => cases hi
  | h1 c0 => simp at heven
  | h2 c1 c2 rest ih =>
    have hc1 : isHexDigitChar c1 = true := hall c1 (by simp)
    have hc2 : isHexDigitChar c2 = true := hall c2 (by simp)
    rcases i with _ | _ | j
    · have hg : (c1 :: c2 :: rest).get ⟨0, hi⟩ = c1 := rfl
      rw [hg] at hne
      simp only [List.set]
      unfold hexToBuffer
      rw [hc, hc1, hc2]
      simp only [Bool.and_self, if_true]
      intro heq
      injection heq with hb _
      exact hne (by omega)
    · have hg : (c1 :: c2 :: rest).get ⟨0 + 1, hi⟩ = c2 := rfl
      rw [hg] at hne
      simp only [List.set]
      unfold hexToBuffer
      rw [hc, hc1, hc2]
      simp only [Bool.and_self, if_true]
      intro heq
      injection heq with hb _
      exact hne (by omega)
    · have hj : j < rest.length := by
        simp only [List.length_cons] at hi
        omega
      have hg : (c1 :: c2 :: rest).get ⟨j + 1 + 1, hi⟩ = rest.get ⟨j, hj⟩ := rfl
      rw [hg] at hne
      simp only [List.set]
      unfold hexToBuffer
      rw [hc1, hc2]
      simp only [Bool.and_self, if_true]
      intro heq
      injection heq with _ htl
      exact absurd htl
        (ih j (fun x hx => hall x (List.mem_cons_of_mem _ (List.mem_cons_of_mem _ hx)))
          (by simp only [List.length_cons] at heven; omega) hj hne)

/-- Concrete primitive instance for the closed witness and counterexample
statements: keystream byte `(sum key + sum nonce + i) mod 256`, tag 15 zero
bytes followed by `(sum key + sum nonce + sum ct) mod 256`.  It is not AES —
it only has to satisfy `GcmPrimWF` and separate the concrete points the
closed statements use. -/
def toyPrim : GcmPrim where
  stream := fun k n i => (k.sum + n.sum + i) % 256
  tagOf := fun k n ct => List.replicate 15 0 ++ [(k.sum + n.sum + ct.sum) % 256]

theorem toyPrim_wf : GcmPrimWF toyPrim := by
  refine ⟨fun k n i => Nat.mod_lt _ (by omega), fun k n ct => by simp [toyPrim],
    fun k n ct => ?_⟩
  intro b hb
  simp only [toyPrim, List.mem_append, List.mem_replicate, List.mem_singleton] at hb
  rcases hb with ⟨-, rfl⟩ | rfl
  · omega
  · exact Nat.mod_lt _ (by omega)

/-- Codec instance whose parse succeeds exactly on its own output. -/
def toyCodec : JsonCodec where
  stringify := fun _ => [110]
  parse := fun bs => if bs = [110] then some Json.null else none

/-- Codec instance whose parse always fails, exercising the uncaught
`JSON.parse` throw inside `decryptPayload`. -/
def failParseCodec : JsonCodec where
  stringify := fun _ => [110]
  parse := fun _ => none

/-- Concrete randomness for the closed statements. -/
def toyRnd : EncRandom where
  id := ['i', 'd', '1']
  dek := List.replicate 32 1
  payloadNonce := List.replicate 12 2
  dekWrapNonce := List.replicate 12 3

theorem toyRnd_wf : EncRandomWF toyRnd :=
  ⟨by decide, by decide, by decide, by decide, by decide, by decide⟩

def zeroKey : Bytes := List.replicate 32 0

def fourKey : Bytes := List.replicate 32 4

def shortKey16 : Bytes := List.replicate 16 0

def shortKey31 : Bytes := List.replicate 31 0

def toyNow : Str := ['t', '0']

def toyInput : EncryptInput := ⟨['p', '1'], Json.null⟩

def blankRecord : TxSecureRecord := ⟨[], [], [], [], [], [], [], [], [], [], 0⟩

/-- Total projection used only to name concrete records in closed
statements. -/
def exceptGetOk (e : Except CryptoError TxSecureRecord) (d : TxSecureRecord) : TxSecureRecord :=
  match e with
  | .ok a => a
  | .error _ => d

/-- Concrete record produced by `encryptPayload` on the toy instances. -/
def toyRecord : TxSecureRecord :=
  exceptGetOk (encryptPayload toyPrim toyCodec toyRnd toyNow toyInput zeroKey) blankRecord

/-- C1 (round trip): for every primitive satisfying the GCM shape contract,
every codec, randomness, timestamp, partyId, payload and 32-byte master key,
if the serialized payload parses back to `p'` (its JSON normalization), then
`decryptPayload` applied to the `encryptPayload` output under the same key
succeeds and returns the generated record id, the input partyId, and `p'`. -/
theorem c1_round_trip (P : GcmPrim) (C : JsonCodec) (rnd : EncRandom) (now : Str)
    (input : EncryptInput) (mkKey : Bytes) (record : TxSecureRecord) (p' : Json)
    (hP : GcmPrimWF P) (hrnd : EncRandomWF rnd) (hmk : mkKey.length = 32)
    (hsb : BytesWF (C.stringify input.payload))
    (hparse : C.parse (C.stringify input.payload) = some p')
    (henc : encryptPayload P C rnd now input mkKey = Except.ok record) :
    decryptPayload P C record mkKey = Except.ok ⟨rnd.id, input.partyId, p'⟩ := by
  rw [encryptPayload_ok P C rnd now input mkKey hmk] at henc
  injection henc with h
  subst h
  rw [decryptPayload_wellformed P C _ mkKey rnd.dek rnd.payloadNonce rnd.dekWrapNonce
    (C.stringify input.payload) hP hmk hrnd.dek_wf hrnd.payloadNonce_wf
    hrnd.payloadNonce_length hrnd.dekWrapNonce_wf hrnd.dekWrapNonce_length hsb
    rfl rfl rfl rfl rfl rfl, hparse]
  rfl

/-- Witness for C1 at the toy instances. -/
theorem c1_round_trip_witness :
    decryptPayload toyPrim toyCodec toyRecord zeroKey =
      Except.ok ⟨toyRnd.id, toyInput.partyId, Json.null⟩ :=
  c1_round_trip toyPrim toyCodec toyRnd toyNow toyInput zeroKey toyRecord Json.null
    toyPrim_wf toyRnd_wf (by decide) (by decide) rfl rfl

/-- C10 (metadata fields are unauthenticated): replacing `id`, `partyId` and
`createdAt` of an `encryptPayload` output with arbitrary strings leaves
`decryptPayload` succeeding, and it echoes the replaced id and partyId; no
authentication tag binds the three metadata fields. -/
theorem c10_metadata_unauthenticated (P : GcmPrim) (C : JsonCodec) (rnd : EncRandom)
    (now : Str) (input : EncryptInput) (mkKey : Bytes) (record : TxSecureRecord) (p' : Json)
    (i0 p0 t0 : Str)
    (hP : GcmPrimWF P) (hrnd : EncRandomWF rnd) (hmk : mkKey.length = 32)
    (hsb : BytesWF (C.stringify input.payload))
    (hparse : C.parse (C.stringify input.payload) = some p')
    (henc : encryptPayload P C rnd now input mkKey = Except.ok record) :
    decryptPayload P C { record with id := i0, partyId := p0, createdAt := t0 } mkKey =
      Except.ok ⟨i0, p0, p'⟩ := by
  rw [encryptPayload_ok P C rnd now input mkKey hmk] at henc
  injection henc with h
  subst h
  rw [decryptPayload_wellformed P C _ mkKey rnd.dek rnd.payloadNonce rnd.dekWrapNonce
    (C.stringify input.payload) hP hmk hrnd.dek_wf hrnd.payloadNonce_wf
    hrnd.payloadNonce_length hrnd.dekWrapNonce_wf hrnd.dekWrapNonce_length hsb
    rfl rfl rfl rfl rfl rfl, hparse]

/-- Witness for C10 at the toy instances. -/
theorem c10_metadata_unauthenticated_witness :
    decryptPayload toyPrim toyCodec
        { toyRecord with id := ['Z'], partyId := ['Q'], createdAt := ['T'] } zeroKey =
      Except.ok ⟨['Z'], ['Q'], Json.null⟩ :=
  c10_metadata_unauthenticated toyPrim toyCodec toyRnd toyNow toyInput zeroKey toyRecord
    Json.null ['Z'] ['Q'] ['T'] toyPrim_wf toyRnd_wf (by decide) (by decide) rfl rfl

deriving instance DecidableEq for Except

theorem validateRecord_encryptRecordBody (P : GcmPrim) (C : JsonCodec) (rnd : EncRandom)
    (now : Str) (input : EncryptInput) (mkKey : Bytes)
    (hP : GcmPrimWF P) (hrnd : EncRandomWF rnd) :
    validateRecord (encryptRecordBody P C rnd now input mkKey) = Except.ok () := by
  rw [validateRecord_ok_iff]
  simp only [encryptRecordBody, aes256gcmEncrypt]
  refine ⟨⟨isValidHex_bytesToHex _, ?_⟩, isValidHex_bytesToHex _,
    ⟨isValidHex_bytesToHex _, ?_⟩, ⟨isValidHex_bytesToHex _, ?_⟩,
    isValidHex_bytesToHex _, ⟨isValidHex_bytesToHex _, ?_⟩⟩
  · rw [hexToBuffer_bytesToHex _ hrnd.payloadNonce_wf, hrnd.payloadNonce_length]
  · rw [hexToBuffer_bytesToHex _ (hP.tagOf_wf _ _ _), hP.tagOf_length]
  · rw [hexToBuffer_bytesToHex _ hrnd.dekWrapNonce_wf, hrnd.dekWrapNonce_length]
  · rw [hexToBuffer_bytesToHex _ (hP.tagOf_wf _ _ _), hP.tagOf_length]

/-- C4 (validation gate acceptance): `validateRecord` accepts a record
exactly when all six binary fields are valid hex, both nonces decode to
exactly 12 bytes, and both tags decode to exactly 16 bytes —
`payload_ct` and `dek_wrapped` carry no constraint beyond valid hex, so in
particular length zero passes; and being valid hex means exactly that every
character is in `[0-9a-fA-F]` and the length is even. -/
theorem c4_validation_gate_iff (r : TxSecureRecord) :
    (validateRecord r = Except.ok () ↔
      (isValidHex r.payload_nonce = true ∧ (hexToBuffer r.payload_nonce).length = 12) ∧
      isValidHex r.payload_ct = true ∧
      (isValidHex r.payload_tag = true ∧ (hexToBuffer r.payload_tag).length = 16) ∧
      (isValidHex r.dek_wrap_nonce = true ∧ (hexToBuffer r.dek_wrap_nonce).length = 12) ∧
      isValidHex r.dek_wrapped = true ∧
      (isValidHex r.dek_wrap_tag = true ∧ (hexToBuffer r.dek_wrap_tag).length = 16)) ∧
    (∀ s : Str, isValidHex s = true ↔
      (∀ c ∈ s, isHexDigitChar c = true) ∧ s.length % 2 = 0) :=
  ⟨validateRecord_ok_iff r, isValidHex_iff⟩

/-- Witness for C4: the toy record, whose `payload_ct` has length 2, is
accepted by the gate. -/
theorem c4_validation_gate_iff_witness :
    validateRecord toyRecord = Except.ok () :=
  (c4_validation_gate_iff toyRecord).1.mpr
    ⟨⟨by decide, by decide⟩, by decide, ⟨by decide, by decide⟩, ⟨by decide, by decide⟩,
      by decide, ⟨by decide, by decide⟩⟩

/-- C6 (key length precondition): with a master key whose length is not 32
bytes, both entry points fail with the key-length error, and the result is
the same for every primitive, codec, randomness and record — so no random
generation, AEAD call or record-field processing can have taken place. -/
theorem c6_key_length_precondition (P : GcmPrim) (C : JsonCodec) (rnd : EncRandom)
    (now : Str) (input : EncryptInput) (r : TxSecureRecord) (mkKey : Bytes)
    (h : mkKey.length ≠ 32) :
    encryptPayload P C rnd now input mkKey = Except.error CryptoError.invalidKeyLength ∧
    decryptPayload P C r mkKey = Except.error CryptoError.invalidKeyLength := by
  refine ⟨encryptPayload_err P C rnd now input mkKey h, ?_⟩
  unfold decryptPayload
  rw [if_pos h]

/-- Witness for C6 with 16-byte and 31-byte keys. -/
theorem c6_key_length_precondition_witness :
    (encryptPayload toyPrim toyCodec toyRnd toyNow toyInput shortKey16 =
        Except.error CryptoError.invalidKeyLength ∧
      decryptPayload toyPrim toyCodec blankRecord shortKey16 =
        Except.error CryptoError.invalidKeyLength) ∧
    (encryptPayload toyPrim toyCodec toyRnd toyNow toyInput shortKey31 =
        Except.error CryptoError.invalidKeyLength ∧
      decryptPayload toyPrim toyCodec blankRecord shortKey31 =
        Except.error CryptoError.invalidKeyLength) :=
  ⟨c6_key_length_precondition toyPrim toyCodec toyRnd toyNow toyInput blankRecord shortKey16
      (by decide),
    c6_key_length_precondition toyPrim toyCodec toyRnd toyNow toyInput blankRecord shortKey31
      (by decide)⟩

/-- C7 (validation before cryptography): with a 32-byte master key, whenever
the validation gate reports an error on a record, `decryptPayload` fails with
exactly that error wrapped as `MalformedRecord`, naming the offending field;
the result is the same for every primitive and codec, so no AEAD decryption
is invoked and no key material beyond the length check is consulted. -/
theorem c7_validation_before_crypto (P : GcmPrim) (C : JsonCodec) (r : TxSecureRecord)
    (mkKey : Bytes) (e : ValErr) (hmk : mkKey.length = 32)
    (hval : validateRecord r = Except.error e) :
    decryptPayload P C r mkKey = Except.error (CryptoError.malformedRecord e) := by
  unfold decryptPayload
  rw [if_neg (by omega), hval]

/-- Witness for C7: the all-empty record fails on the `payload_nonce`
length. -/
theorem c7_validation_before_crypto_witness :
    decryptPayload toyPrim toyCodec blankRecord zeroKey =
      Except.error (CryptoError.malformedRecord
        (ValErr.wrongByteLength HexField.payload_nonce 12 0)) :=
  c7_validation_before_crypto toyPrim toyCodec blankRecord zeroKey
    (ValErr.wrongByteLength HexField.payload_nonce 12 0) (by decide) (by decide)

/-- C5 (amended; encrypt failure modes): `encryptPayload` itself fails only
on the master-key length and otherwise succeeds for every payload — it
performs no payload-shape check, so arrays, scalars and `null` are encrypted
too; the rejection of non-object payloads lives in the `/tx/encrypt` route
guard of `server.ts`, which rejects exactly the non-objects before calling
`encryptPayload`. -/
theorem c5_encrypt_failure_modes (P : GcmPrim) (C : JsonCodec) (rnd : EncRandom)
    (now : Str) (input : EncryptInput) (mkKey : Bytes) :
    (mkKey.length ≠ 32 →
      encryptPayload P C rnd now input mkKey = Except.error CryptoError.invalidKeyLength) ∧
    (mkKey.length = 32 →
      encryptPayload P C rnd now input mkKey =
        Except.ok (encryptRecordBody P C rnd now input mkKey)) ∧
    txEncryptHandlerRejectsPayload input.payload = !jsonIsObj input.payload := by
  refine ⟨encryptPayload_err P C rnd now input mkKey,
    encryptPayload_ok P C rnd now input mkKey, ?_⟩
  cases input.payload <;>
    simp [txEncryptHandlerRejectsPayload, jsTruthy, jsTypeofIsObject, jsIsArray, jsonIsObj]

/-- Witness for C5 (amended): a 16-byte key fails, a 32-byte key succeeds. -/
theorem c5_encrypt_failure_modes_witness :
    encryptPayload toyPrim toyCodec toyRnd toyNow toyInput shortKey16 =
        Except.error CryptoError.invalidKeyLength ∧
    encryptPayload toyPrim toyCodec toyRnd toyNow toyInput zeroKey =
        Except.ok (encryptRecordBody toyPrim toyCodec toyRnd toyNow toyInput zeroKey) :=
  ⟨(c5_encrypt_failure_modes toyPrim toyCodec toyRnd toyNow toyInput shortKey16).1 (by decide),
    (c5_encrypt_failure_modes toyPrim toyCodec toyRnd toyNow toyInput zeroKey).2.1 (by decide)⟩

/-- C5 counterexample: `encryptPayload` succeeds on an array payload under a
32-byte key, where the claim says it fails with `InvalidInput`; it contains
no payload-shape check at all. -/
theorem c5_counterexample :
    encryptPayload toyPrim toyCodec toyRnd toyNow ⟨['p', '1'], Json.arr []⟩ zeroKey =
      Except.ok (encryptRecordBody toyPrim toyCodec toyRnd toyNow
        ⟨['p', '1'], Json.arr []⟩ zeroKey) ∧
    jsonIsObj (Json.arr []) = false :=
  ⟨encryptPayload_ok toyPrim toyCodec toyRnd toyNow ⟨['p', '1'], Json.arr []⟩ zeroKey
      (by decide), rfl⟩

/-- C8 (amended; alg and mk_version are ignored): `decryptPayload` never
reads `alg` or `mk_version` — replacing them by arbitrary values leaves its
result unchanged, so a record carrying any other tag values is processed
exactly as if the current scheme applied; there is no rejection and no
branch.  The reject-or-branch behaviour the claim requires exists only in
the static TypeScript literal types. -/
theorem c8_alg_mkversion_ignored (P : GcmPrim) (C : JsonCodec) (r : TxSecureRecord)
    (mkKey : Bytes) (a : Str) (v : Nat) :
    decryptPayload P C { r with alg := a, mk_version := v } mkKey =
      decryptPayload P C r mkKey := by
  cases r
  rfl

/-- C8 counterexample: a record whose `alg` is not `"AES-256-GCM"` and whose
`mk_version` is not 1 is decrypted successfully, with no rejection and no
branch on the observed values. -/
theorem c8_counterexample :
    (['X'] : Str) ≠ algTag ∧ (7 : Nat) ≠ 1 ∧
    decryptPayload toyPrim toyCodec { toyRecord with alg := ['X'], mk_version := 7 }
        zeroKey = Except.ok ⟨toyRnd.id, toyInput.partyId, Json.null⟩ := by
  refine ⟨by decide, by decide, ?_⟩
  rfl

/-- C3 (wrong key rejection): decrypting an `encryptPayload` output with a
32-byte key different from the master key fails at the DEK-unwrap step with
the unwrap error, given that the GCM tag under the wrong key differs from
the stored wrap tag at this point (GCM key separation — for the real
primitive, equality holds only with negligible probability). -/
theorem c3_wrong_key_rejection (P : GcmPrim) (C : JsonCodec) (rnd : EncRandom) (now : Str)
    (input : EncryptInput) (mkKey mk2 : Bytes) (record : TxSecureRecord)
    (hP : GcmPrimWF P) (hrnd : EncRandomWF rnd) (hmk : mkKey.length = 32)
    (hmk2 : mk2.length = 32) (hdiff : mk2 ≠ mkKey)
    (henc : encryptPayload P C rnd now input mkKey = Except.ok record)
    (hsep : P.tagOf mk2 (hexToBuffer record.dek_wrap_nonce)
      (hexToBuffer record.dek_wrapped) ≠ hexToBuffer record.dek_wrap_tag) :
    decryptPayload P C record mk2 = Except.error CryptoError.dekUnwrapFailure := by
  rw [encryptPayload_ok P C rnd now input mkKey hmk] at henc
  injection henc with h
  subst h
  exact decryptPayload_unwrap_fail P C _ mk2 hmk2
    (validateRecord_encryptRecordBody P C rnd now input mkKey hP hrnd)
    (aes256gcmDecrypt_none _ _ _ _ _ hsep)

/-- Witness for C3 with the toy instances and a different 32-byte key. -/
theorem c3_wrong_key_rejection_witness :
    decryptPayload toyPrim toyCodec toyRecord fourKey =
      Except.error CryptoError.dekUnwrapFailure :=
  c3_wrong_key_rejection toyPrim toyCodec toyRnd toyNow toyInput zeroKey fourKey toyRecord
    toyPrim_wf toyRnd_wf (by decide) (by decide) (by decide) rfl (by decide)

/-- C9 (internal inconsistency): when the key-length check and validation
gate pass and both AEAD layers authenticate, but the authenticated plaintext
does not parse as JSON, `decryptPayload` fails with the propagated parse
error — the spec's `InternalInconsistency` class — which is distinct from
both authentication-failure errors, so it reaches the caller unswallowed and
unconflated with tampering. -/
theorem c9_internal_inconsistency (P : GcmPrim) (C : JsonCodec) (r : TxSecureRecord)
    (mkKey dek pb : Bytes) (hmk : mkKey.length = 32)
    (hval : validateRecord r = Except.ok ())
    (hunwrap : aes256gcmDecrypt P mkKey (hexToBuffer r.dek_wrap_nonce)
      (hexToBuffer r.dek_wrapped) (hexToBuffer r.dek_wrap_tag) = some dek)
    (hpayload : aes256gcmDecrypt P dek (hexToBuffer r.payload_nonce)
      (hexToBuffer r.payload_ct) (hexToBuffer r.payload_tag) = some pb)
    (hparse : C.parse pb = none) :
    decryptPayload P C r mkKey = Except.error CryptoError.jsonParseFailure ∧
    CryptoError.jsonParseFailure ≠ CryptoError.dekUnwrapFailure ∧
    CryptoError.jsonParseFailure ≠ CryptoError.payloadDecryptFailure := by
  refine ⟨?_, by decide, by decide⟩
  rw [decryptPayload_payload_layer P C r mkKey dek hmk hval hunwrap]
  simp only [hpayload, hparse]

/-- Witness for C9: the toy record decrypted with the always-failing parse
codec. -/
theorem c9_internal_inconsistency_witness :
    decryptPayload toyPrim failParseCodec toyRecord zeroKey =
      Except.error CryptoError.jsonParseFailure :=
  (c9_internal_inconsistency toyPrim failParseCodec toyRecord zeroKey
    (List.replicate 32 1) [110] (by decide) (by decide) (by decide) (by decide) rfl).1

theorem decryptPayload_payload_fail (P : GcmPrim) (C : JsonCodec) (r : TxSecureRecord)
    (mkKey dek : Bytes) (hmk : mkKey.length = 32) (hval : validateRecord r = Except.ok ())
    (hunwrap : aes256gcmDecrypt P mkKey (hexToBuffer r.dek_wrap_nonce)
      (hexToBuffer r.dek_wrapped) (hexToBuffer r.dek_wrap_tag) = some dek)
    (hpay : aes256gcmDecrypt P dek (hexToBuffer r.payload_nonce) (hexToBuffer r.payload_ct)
      (hexToBuffer r.payload_tag) = none) :
    decryptPayload P C r mkKey = Except.error CryptoError.payloadDecryptFailure := by
  rw [decryptPayload_payload_layer P C r mkKey dek hmk hval hunwrap, hpay]

/-- C2 (amended; tamper detection): for a record produced by
`encryptPayload`, replacing a single hex character of `payload_tag` or
`dek_wrap_tag` by a hex character with a different digit value makes
`decryptPayload` fail with the corresponding authentication error, and
replacing a single hex character of `payload_ct` or `dek_wrapped` makes it
fail whenever the GCM tag of the altered ciphertext differs from the stored
tag (which for AES-GCM fails only with negligible tag-collision
probability).  A case-only flip such as `e` to `E` is the exception the
claim missed: it changes no decoded byte, so decryption succeeds — but with
the original, correct data, so wrong data is never returned. -/
theorem c2_tamper_detection (P : GcmPrim) (C : JsonCodec) (rnd : EncRandom) (now : Str)
    (input : EncryptInput) (mkKey : Bytes) (record : TxSecureRecord)
    (hP : GcmPrimWF P) (hrnd : EncRandomWF rnd) (hmk : mkKey.length = 32)
    (hsb : BytesWF (C.stringify input.payload))
    (henc : encryptPayload P C rnd now input mkKey = Except.ok record) :
    (∀ (i : Nat) (hi : i < record.payload_tag.length) (c : Char),
      isHexDigitChar c = true →
      hexDigitVal c ≠ hexDigitVal (record.payload_tag.get ⟨i, hi⟩) →
      decryptPayload P C { record with payload_tag := record.payload_tag.set i c } mkKey =
        Except.error CryptoError.payloadDecryptFailure) ∧
    (∀ (i : Nat) (hi : i < record.dek_wrap_tag.length) (c : Char),
      isHexDigitChar c = true →
      hexDigitVal c ≠ hexDigitVal (record.dek_wrap_tag.get ⟨i, hi⟩) →
      decryptPayload P C { record with dek_wrap_tag := record.dek_wrap_tag.set i c } mkKey =
        Except.error CryptoError.dekUnwrapFailure) ∧
    (∀ (i : Nat), i < record.payload_ct.length → ∀ (c : Char),
      isHexDigitChar c = true →
      P.tagOf rnd.dek rnd.payloadNonce (hexToBuffer (record.payload_ct.set i c)) ≠
        hexToBuffer record.payload_tag →
      decryptPayload P C { record with payload_ct := record.payload_ct.set i c } mkKey =
        Except.error CryptoError.payloadDecryptFailure) ∧
    (∀ (i : Nat), i < record.dek_wrapped.length → ∀ (c : Char),
      isHexDigitChar c = true →
      P.tagOf mkKey rnd.dekWrapNonce (hexToBuffer (record.dek_wrapped.set i c)) ≠
        hexToBuffer record.dek_wrap_tag →
      decryptPayload P C { record with dek_wrapped := record.dek_wrapped.set i c } mkKey =
        Except.error CryptoError.dekUnwrapFailure) := by
  rw [encryptPayload_ok P C rnd now input mkKey hmk] at henc
  injection henc with h
  subst h
  have hctwf : BytesWF (xorStream P rnd.dek rnd.payloadNonce (C.stringify input.payload)) :=
    xorStream_wf _ _ _ _ (fun j => hP.stream_lt _ _ _) hsb
  have hwctwf : BytesWF (xorStream P mkKey rnd.dekWrapNonce rnd.dek) :=
    xorStream_wf _ _ _ _ (fun j => hP.stream_lt _ _ _) hrnd.dek_wf
  have hunwrap := aes256gcmDecrypt_roundtrip P mkKey rnd.dekWrapNonce rnd.dek hP
    hrnd.dekWrapNonce_wf hrnd.dek_wf
  refine ⟨?_, ?_, ?_, ?_⟩
  · intro i hi c hc hne
    have hvset : isValidHex ((bytesToHex (P.tagOf rnd.dek rnd.payloadNonce
        (xorStream P rnd.dek rnd.payloadNonce (C.stringify input.payload)))).set i c) = true :=
      isValidHex_set _ i c (isValidHex_bytesToHex _) hc
    have hval : validateRecord { encryptRecordBody P C rnd now input mkKey with
        payload_tag := (encryptRecordBody P C rnd now input mkKey).payload_tag.set i c } =
        Except.ok () := by
      rw [validateRecord_ok_iff]
      simp only [encryptRecordBody, aes256gcmEncrypt]
      refine ⟨⟨isValidHex_bytesToHex _, ?_⟩, isValidHex_bytesToHex _, ⟨hvset, ?_⟩,
        ⟨isValidHex_bytesToHex _, ?_⟩, isValidHex_bytesToHex _,
        ⟨isValidHex_bytesToHex _, ?_⟩⟩
      · rw [hexToBuffer_bytesToHex _ hrnd.payloadNonce_wf, hrnd.payloadNonce_length]
      · simp [hexToBuffer_length_of_hex _ ((isValidHex_iff _).mp hvset).1, List.length_set,
          bytesToHex_length, hP.tagOf_length]
      · rw [hexToBuffer_bytesToHex _ hrnd.dekWrapNonce_wf, hrnd.dekWrapNonce_length]
      · rw [hexToBuffer_bytesToHex _ (hP.tagOf_wf _ _ _), hP.tagOf_length]
    have hnone : aes256gcmDecrypt P rnd.dek (hexToBuffer (bytesToHex rnd.payloadNonce))
        (hexToBuffer (bytesToHex (xorStream P rnd.dek rnd.payloadNonce
          (C.stringify input.payload))))
        (hexToBuffer ((bytesToHex (P.tagOf rnd.dek rnd.payloadNonce
          (xorStream P rnd.dek rnd.payloadNonce (C.stringify input.payload)))).set i c)) =
        none := by
      apply aes256gcmDecrypt_none
      rw [hexToBuffer_bytesToHex _ hrnd.payloadNonce_wf, hexToBuffer_bytesToHex _ hctwf]
      intro heq
      exact hexToBuffer_set_ne _ i c (bytesToHex_all_hex _) (by rw [bytesToHex_length]; omega)
        hi hc hne (heq.symm.trans (hexToBuffer_bytesToHex _ (hP.tagOf_wf _ _ _)).symm)
    exact decryptPayload_payload_fail P C _ mkKey rnd.dek hmk hval hunwrap hnone
  · intro i hi c hc hne
    have hvset : isValidHex ((bytesToHex (P.tagOf mkKey rnd.dekWrapNonce
        (xorStream P mkKey rnd.dekWrapNonce rnd.dek))).set i c) = true :=
      isValidHex_set _ i c (isValidHex_bytesToHex _) hc
    have hval : validateRecord { encryptRecordBody P C rnd now input mkKey with
        dek_wrap_tag := (encryptRecordBody P C rnd now input mkKey).dek_wrap_tag.set i c } =
        Except.ok () := by
      rw [validateRecord_ok_iff]
      simp only [encryptRecordBody, aes256gcmEncrypt]
      refine ⟨⟨isValidHex_bytesToHex _, ?_⟩, isValidHex_bytesToHex _,
        ⟨isValidHex_bytesToHex _, ?_⟩, ⟨isValidHex_bytesToHex _, ?_⟩,
        isValidHex_bytesToHex _, ⟨hvset, ?_⟩⟩
      · rw [hexToBuffer_bytesToHex _ hrnd.payloadNonce_wf, hrnd.payloadNonce_length]
      · rw [hexToBuffer_bytesToHex _ (hP.tagOf_wf _ _ _), hP.tagOf_length]
      · rw [hexToBuffer_bytesToHex _ hrnd.dekWrapNonce_wf, hrnd.dekWrapNonce_length]
      · simp [hexToBuffer_length_of_hex _ ((isValidHex_iff _).mp hvset).1, List.length_set,
          bytesToHex_length, hP.tagOf_length]
    have hnone : aes256gcmDecrypt P mkKey (hexToBuffer (bytesToHex rnd.dekWrapNonce))
        (hexToBuffer (bytesToHex (xorStream P mkKey rnd.dekWrapNonce rnd.dek)))
        (hexToBuffer ((bytesToHex (P.tagOf mkKey rnd.dekWrapNonce
          (xorStream P mkKey rnd.dekWrapNonce rnd.dek))).set i c)) = none := by
      apply aes256gcmDecrypt_none
      rw [hexToBuffer_bytesToHex _ hrnd.dekWrapNonce_wf, hexToBuffer_bytesToHex _ hwctwf]
      intro heq
      exact hexToBuffer_set_ne _ i c (bytesToHex_all_hex _) (by rw [bytesToHex_length]; omega)
        hi hc hne (heq.symm.trans (hexToBuffer_bytesToHex _ (hP.tagOf_wf _ _ _)).symm)
    exact decryptPayload_unwrap_fail P C _ mkKey hmk hval hnone
  · intro i hi c hc hsep
    have hvset : isValidHex ((bytesToHex (xorStream P rnd.dek rnd.payloadNonce
        (C.stringify input.payload))).set i c) = true :=
      isValidHex_set _ i c (isValidHex_bytesToHex _) hc
    have hval : validateRecord { encryptRecordBody P C rnd now input mkKey with
        payload_ct := (encryptRecordBody P C rnd now input mkKey).payload_ct.set i c } =
        Except.ok () := by
      rw [validateRecord_ok_iff]
      simp only [encryptRecordBody, aes256gcmEncrypt]
      refine ⟨⟨isValidHex_bytesToHex _, ?_⟩, hvset,
        ⟨isValidHex_bytesToHex _, ?_⟩, ⟨isValidHex_bytesToHex _, ?_⟩,
        isValidHex_bytesToHex _, ⟨isValidHex_bytesToHex _, ?_⟩⟩
      · rw [hexToBuffer_bytesToHex _ hrnd.payloadNonce_wf, hrnd.payloadNonce_length]
      · rw [hexToBuffer_bytesToHex _ (hP.tagOf_wf _ _ _), hP.tagOf_length]
      · rw [hexToBuffer_bytesToHex _ hrnd.dekWrapNonce_wf, hrnd.dekWrapNonce_length]
      · rw [hexToBuffer_bytesToHex _ (hP.tagOf_wf _ _ _), hP.tagOf_length]
    have hnone : aes256gcmDecrypt P rnd.dek (hexToBuffer (bytesToHex rnd.payloadNonce))
        (hexToBuffer ((bytesToHex (xorStream P rnd.dek rnd.payloadNonce
          (C.stringify input.payload))).set i c))
        (hexToBuffer (bytesToHex (P.tagOf rnd.dek rnd.payloadNonce
          (xorStream P rnd.dek rnd.payloadNonce (C.stringify input.payload))))) = none := by
      apply aes256gcmDecrypt_none
      rw [hexToBuffer_bytesToHex _ hrnd.payloadNonce_wf]
      exact hsep
    exact decryptPayload_payload_fail P C _ mkKey rnd.dek hmk hval hunwrap hnone
  · intro i hi c hc hsep
    have hvset : isValidHex ((bytesToHex (xorStream P mkKey rnd.dekWrapNonce rnd.dek)).set
        i c) = true :=
      isValidHex_set _ i c (isValidHex_bytesToHex _) hc
    have hval : validateRecord { encryptRecordBody P C rnd now input mkKey with
        dek_wrapped := (encryptRecordBody P C rnd now input mkKey).dek_wrapped.set i c } =
        Except.ok () := by
      rw [validateRecord_ok_iff]
      simp only [encryptRecordBody, aes256gcmEncrypt]
      refine ⟨⟨isValidHex_bytesToHex _, ?_⟩, isValidHex_bytesToHex _,
        ⟨isValidHex_bytesToHex _, ?_⟩, ⟨isValidHex_bytesToHex _, ?_⟩,
        hvset, ⟨isValidHex_bytesToHex _, ?_⟩⟩
      · rw [hexToBuffer_bytesToHex _ hrnd.payloadNonce_wf, hrnd.payloadNonce_length]
      · rw [hexToBuffer_bytesToHex _ (hP.tagOf_wf _ _ _), hP.tagOf_length]
      · rw [hexToBuffer_bytesToHex _ hrnd.dekWrapNonce_wf, hrnd.dekWrapNonce_length]
      · rw [hexToBuffer_bytesToHex _ (hP.tagOf_wf _ _ _), hP.tagOf_length]
    have hnone : aes256gcmDecrypt P mkKey (hexToBuffer (bytesToHex rnd.dekWrapNonce))
        (hexToBuffer ((bytesToHex (xorStream P mkKey rnd.dekWrapNonce rnd.dek)).set i c))
        (hexToBuffer (bytesToHex (P.tagOf mkKey rnd.dekWrapNonce
          (xorStream P mkKey rnd.dekWrapNonce rnd.dek)))) = none := by
      apply aes256gcmDecrypt_none
      rw [hexToBuffer_bytesToHex _ hrnd.dekWrapNonce_wf]
      exact hsep
    exact decryptPayload_unwrap_fail P C _ mkKey hmk hval hnone

/-- Witness for C2 at the toy instances: flipping the final hex digit of
`payload_tag` from `e` (value 14) to `a` (value 10) makes decryption fail
with the payload authentication error. -/
theorem c2_tamper_detection_witness :
    decryptPayload toyPrim toyCodec
        { toyRecord with payload_tag := toyRecord.payload_tag.set 31 'a' } zeroKey =
      Except.error CryptoError.payloadDecryptFailure :=
  (c2_tamper_detection toyPrim toyCodec toyRnd toyNow toyInput zeroKey toyRecord
    toyPrim_wf toyRnd_wf (by decide) (by decide) rfl).1 31 (by decide) 'a' (by decide)
    (by decide)

/-- C2 counterexample: flipping the hex character `e` at index 31 of the toy
record's `payload_tag` to its uppercase form `E` is a single-hex-character
flip after which `decryptPayload` still succeeds, because hex decoding is
case-insensitive and the decoded record is unchanged; it returns the
original, correct payload. -/
theorem c2_counterexample :
    toyRecord.payload_tag.get ⟨31, by decide⟩ = 'e' ∧
    ('E' : Char) ≠ 'e' ∧ isHexDigitChar 'E' = true ∧
    decryptPayload toyPrim toyCodec
        { toyRecord with payload_tag := toyRecord.payload_tag.set 31 'E' } zeroKey =
      Except.ok ⟨toyRnd.id, toyInput.partyId, Json.null⟩ :=
  ⟨by decide, by decide, by decide, by rfl⟩
